import Mathlib

/-!
Formal model of the Review_Bias_Analysis fetch-expand-sample pipeline.

The development shallowly embeds the core of `V2/fetch_reviews.py`:
`fetch_reviews`, `extract_reviewer_id`, the expansion loop of `main`, and the
down-sampling step (`random.sample`, also used with a fixed seed in
`data/sampling/data_sampler.py`).  The remote OpenReview service is modelled
as a function from paper identifiers to either an error message (a raised
exception's string) or a list of notes; Python's seedable pseudo-random
generator is modelled as an explicit deterministic generator threaded through
the sampling recursion.
-/

set_option maxRecDepth 4000

namespace ReviewBias

/-- The `signatures` attribute of a remote note: `missing` models an object
without the attribute (`hasattr` is false), `malformed` models an attribute
whose read raises (caught by `extract_reviewer_id`'s `try`), and `present`
models a plain list of signature strings. -/
inductive SigField where
  | missing : SigField
  | malformed (msg : String) : SigField
  | present (sigs : List String) : SigField
  deriving DecidableEq

/-- A note returned by the remote service.  `invitations = none` models a note
object without an `invitations` attribute (the `hasattr` guard in
`fetch_reviews` then substitutes `[]`). -/
structure Note where
  invitations : Option (List String)
  signatures : SigField
  deriving DecidableEq

/-- One input record `{paper_id, forum_url}` read from the input CSV. -/
structure PaperRef where
  paper_id : String
  forum_url : String
  deriving DecidableEq

/-- One output record `{paper_id, forum_url, reviewer_id}` appended to
`expanded_rows` in `main`. -/
structure ExpandedRow where
  paper_id : String
  forum_url : String
  reviewer_id : String
  deriving DecidableEq

/-- The run counters of `main`.  `papers_with_reviews`, `total_reviews` and
`errors` are the variables of the same names; `processed` is modelled from the
spec's RunStats (the source reports `len(papers)`, which the loop reaches by
handling one paper per iteration). -/
structure RunStats where
  processed : Nat
  papers_with_reviews : Nat
  total_reviews : Nat
  errors : Nat
  deriving DecidableEq

def RunStats.init : RunStats := ⟨0, 0, 0, 0⟩

/-- Python's substring test `pat in s`, on character lists: true iff `pat`
occurs contiguously (at any position, case-sensitively) in the second list. -/
def isSubstr (pat : List Char) : List Char → Bool
  | [] => pat.isEmpty
  | c :: rest => pat.isPrefixOf (c :: rest) || isSubstr pat rest

/-- The test `"Official_Review" in invitation` from `fetch_reviews`. -/
def containsOfficialReview (invitation : String) : Bool :=
  isSubstr "Official_Review".data invitation.data

/-- Whether the inner `for invitation in invitations` loop of `fetch_reviews`
appends the note: some invitation label contains the marker token.  The `break`
after the append makes the loop equivalent to this existence test, appending
the note at most once. -/
def noteMatches (note : Note) : Bool :=
  (note.invitations.getD []).any containsOfficialReview

/-- The accumulation loop of `fetch_reviews`: walk the notes in service order
and append each matching note (once, thanks to the `break`). -/
def collectOfficialReviews : List Note → List Note
  | [] => []
  | note :: rest =>
    if noteMatches note then note :: collectOfficialReviews rest
    else collectOfficialReviews rest

/-- `fetch_reviews(client, paper_id)`.  The remote call
`client.get_all_notes(forum=paper_id)` is the `service` argument; a raised
exception is the `.error` case, caught by the `try/except`, which prints the
paper id with the message truncated to 80 characters and returns `[]`.  The
second component is the list of log lines printed. -/
def fetch_reviews (service : String → Except String (List Note)) (paper_id : String) :
    List Note × List String :=
  match service paper_id with
  | .ok notes => (collectOfficialReviews notes, [])
  | .error e => ([], ["  [X] Error for " ++ paper_id ++ ": " ++ e.take 80])

/-- Modelled from the spec: the spec's wording for the invitation filter,
"label containing the marker token `Official_Review`, case- and
position-insensitive substring match".  Used only to compare the spec's
wording against the code's case-sensitive test. -/
def specCaseInsensitiveMatch (invitation : String) : Bool :=
  isSubstr ("Official_Review".data.map Char.toLower) (invitation.data.map Char.toLower)

/-- The guarded attribute read
`signatures = review.signatures if hasattr(review, "signatures") else []`:
a missing attribute yields `[]`, a malformed one raises. -/
def readSignatures (review : Note) : Except String (List String) :=
  match review.signatures with
  | .malformed msg => .error msg
  | .missing => .ok []
  | .present sigs => .ok sigs

/-- `extract_reviewer_id(review)`: first signature if the list is non-empty,
`None` otherwise; any exception is caught and mapped to `None`. -/
def extract_reviewer_id (review : Note) : Option String :=
  match readSignatures review with
  | .error _ => none
  | .ok [] => none
  | .ok (s :: _) => some s

/-- Whether a review passes `main`'s `if reviewer_id:` truthiness test:
the extracted id is neither `None` nor the empty string. -/
def hasResolvableReviewer (review : Note) : Bool :=
  match extract_reviewer_id review with
  | none => false
  | some reviewer_id => if reviewer_id = "" then false else true

/-- The body of `main`'s inner `for review in reviews` loop for one review:
the appended row, if any (`if reviewer_id:` skips `None` and `""`). -/
def rowForReview (paper : PaperRef) (review : Note) : Option ExpandedRow :=
  match extract_reviewer_id review with
  | none => none
  | some reviewer_id =>
    if reviewer_id = "" then none
    else some { paper_id := paper.paper_id, forum_url := paper.forum_url,
                reviewer_id := reviewer_id }

/-- One iteration of `main`'s `for idx, paper in enumerate(papers, 1)` loop:
fetch, expand, and update the counters.  The branch structure mirrors the
source: `if reviews:` (non-empty) expands and updates the review counters,
its `else` re-tests `len(reviews) == 0` and only otherwise increments
`errors`. -/
def processPaper (service : String → Except String (List Note))
    (acc : List ExpandedRow × RunStats) (paper : PaperRef) :
    List ExpandedRow × RunStats :=
  let reviews := (fetch_reviews service paper.paper_id).1
  let stats := acc.2
  if reviews.isEmpty then
    if reviews.length = 0 then
      (acc.1, { stats with processed := stats.processed + 1 })
    else
      (acc.1, { stats with processed := stats.processed + 1, errors := stats.errors + 1 })
  else
    let newRows := reviews.filterMap (rowForReview paper)
    let review_count := newRows.length
    if review_count > 0 then
      (acc.1 ++ newRows,
        { stats with
            processed := stats.processed + 1,
            papers_with_reviews := stats.papers_with_reviews + 1,
            total_reviews := stats.total_reviews + review_count })
    else
      (acc.1 ++ newRows, { stats with processed := stats.processed + 1 })

/-- The whole expansion loop of `main`: fold `processPaper` over the input
papers, starting from no rows and zeroed counters. -/
def mainLoop (service : String → Except String (List Note)) (papers : List PaperRef) :
    List ExpandedRow × RunStats :=
  papers.foldl (processPaper service) ([], RunStats.init)

/-- State of the seedable pseudo-random generator (`random` module /
`random_state`), modelled as a deterministic linear congruential generator:
the exact stream differs from CPython's Mersenne Twister, but it is a faithful
model of a seeded deterministic source. -/
abbrev Gen := Nat

/-- One generator step: next pseudo-random number and next state. -/
def lcgNext (g : Gen) : Nat × Gen :=
  let g2 := (g * 1103515245 + 12345) % 2147483648
  (g2, g2)

/-- Seed the generator (`random.seed(seed)` / `random_state=seed`). -/
def mkGen (seed : Nat) : Gen := seed % 2147483648

/-- `random.sample(pool, k)`: `k` draws without replacement.  Each step picks
the element at a pseudo-random index and removes it from the pool, so every
chosen position is distinct; an exhausted pool stops the recursion (CPython
instead raises before starting when `k > len(pool)`, a case `main` never
reaches thanks to its `min`). -/
def randomSample {α : Type} (g : Gen) (pool : List α) (k : Nat) : List α :=
  match k with
  | 0 => []
  | k2 + 1 =>
    let r := lcgNext g
    let j := r.1 % pool.length
    match pool[j]? with
    | none => []
    | some a => a :: randomSample r.2 (pool.eraseIdx j) k2

def SAMPLE_SIZE : Nat := 150

/-- The sampling step at the end of `main` (lines 168-179), with the target
size and seed as parameters:
`sample_count = min(SAMPLE_SIZE, len(expanded_rows))`, then
`random.sample(expanded_rows, sample_count)` when `len(expanded_rows) >
SAMPLE_SIZE`, else the rows unchanged. -/
def sampler {α : Type} (seed : Nat) (rows : List α) (target_size : Nat) : List α :=
  let sample_count := min target_size rows.length
  if rows.length > target_size then randomSample (mkGen seed) rows sample_count
  else rows

/-- Operational (big-step) description of `randomSample`: each inference rule
is one evaluation step of the sampling loop. -/
inductive RandomSampleRel {α : Type} : Gen → List α → Nat → List α → Prop where
  | done (g : Gen) (pool : List α) : RandomSampleRel g pool 0 []
  | exhausted (g : Gen) (pool : List α) (k : Nat) (r : Nat) (g2 : Gen)
      (hstep : lcgNext g = (r, g2))
      (hnone : pool[r % pool.length]? = none) :
      RandomSampleRel g pool (k + 1) []
  | pick (g : Gen) (pool : List α) (k : Nat) (a : α) (out : List α) (r : Nat) (g2 : Gen)
      (hstep : lcgNext g = (r, g2))
      (hsome : pool[r % pool.length]? = some a)
      (hrec : RandomSampleRel g2 (pool.eraseIdx (r % pool.length)) k out) :
      RandomSampleRel g pool (k + 1) (a :: out)

/-- Operational description of one invocation of the Sampler: either the rows
are kept unchanged (not enough data) or a without-replacement sample is
drawn from the seeded generator. -/
inductive SamplerRel {α : Type} : Nat → List α → Nat → List α → Prop where
  | keep (seed : Nat) (rows : List α) (target_size : Nat)
      (h : ¬ rows.length > target_size) : SamplerRel seed rows target_size rows
  | sampled (seed : Nat) (rows : List α) (target_size : Nat) (out : List α)
      (h : rows.length > target_size)
      (hs : RandomSampleRel (mkGen seed) rows (min target_size rows.length) out) :
      SamplerRel seed rows target_size out

/-- The tail of `main` after the expansion loop: if no rows were accumulated,
report failure and write nothing (`return` before any sampling); otherwise
sample down to `SAMPLE_SIZE` and write the sampled rows.  `none` models the
early `return` with no output file, `some out` models writing `out`. -/
def mainRun (service : String → Except String (List Note)) (papers : List PaperRef)
    (seed : Nat) : Option (List ExpandedRow) × RunStats :=
  let result := mainLoop service papers
  if result.1.isEmpty then (none, result.2)
  else (some (sampler seed result.1 SAMPLE_SIZE), result.2)

/-! ### Concrete fixtures used by counterexamples and witnesses -/

/-- A note whose only invitation label contains the marker token in lower
case, with no signatures attribute. -/
def note_lowercase : Note := ⟨some ["official_review"], SigField.missing⟩

/-- A service whose response to every paper is the single lower-case note. -/
def service_lowercase : String → Except String (List Note) := fun _ => .ok [note_lowercase]

/-- An official-review note carrying a signature. -/
def note_official : Note :=
  ⟨some ["ICLR.cc/2025/Conference/-/Official_Review"], SigField.present ["Reviewer_ab12"]⟩

/-- A non-review note (a comment). -/
def note_comment : Note := ⟨some ["ICLR.cc/2025/Conference/-/Comment"], SigField.present ["Author_x"]⟩

/-- A note with two invitation labels that both contain the marker token. -/
def note_double_invitation : Note :=
  ⟨some ["Conf/-/Official_Review", "Conf/-/Official_Review_Revision"], SigField.missing⟩

/-- A service returning one official review and one comment. -/
def service_mixed : String → Except String (List Note) := fun _ => .ok [note_official, note_comment]

/-- A service returning the doubly-labelled note. -/
def service_double : String → Except String (List Note) := fun _ => .ok [note_double_invitation]

/-- A service that raises for paper "P1" and returns no notes otherwise. -/
def service_raising : String → Except String (List Note) :=
  fun paper_id => if paper_id = "P1" then .error "connection reset by peer" else .ok []

/-- A 100-character error message, to exercise the 80-character truncation. -/
def long_message : String :=
  "0123456789012345678901234567890123456789012345678901234567890123456789012345678901234567890123456789"

/-- A service that always raises with the 100-character message. -/
def service_long_error : String → Except String (List Note) := fun _ => .error long_message

/-- A service returning one official review whose only signature is the empty
string. -/
def service_empty_sig : String → Except String (List Note) :=
  fun _ => .ok [⟨some ["Official_Review"], SigField.present [""]⟩]

/-- A note whose first signature is the empty string. -/
def note_empty_sig : Note := ⟨none, SigField.present [""]⟩

/-- A service returning a single well-formed official review. -/
def service_one : String → Except String (List Note) :=
  fun _ => .ok [⟨some ["Official_Review"], SigField.present ["R1"]⟩]

/-- Notes with each shape of signature field, for the extractor. -/
def note_sig : Note := ⟨none, SigField.present ["Reviewer_ab12", "Area_Chair_q"]⟩

def note_nosig : Note := ⟨none, SigField.present []⟩

def note_missing_sig : Note := ⟨none, SigField.missing⟩

def note_bad_sig : Note := ⟨none, SigField.malformed "attribute error"⟩

/-- A single-paper input list. -/
def papers_one : List PaperRef := [⟨"P1", "u1"⟩]

/-- A two-paper input list ("scenario 2" of the spec). -/
def papers_two : List PaperRef := [⟨"P1", "u1"⟩, ⟨"P2", "u2"⟩]

/-- A ten-element row list for exercising the sampling path. -/
def rows10 : List Nat := [1, 2, 3, 4, 5, 6, 7, 8, 9, 10]

/-- A three-element row list for the boundary cases. -/
def rows3 : List Nat := [10, 20, 30]

/-! ### Helper lemmas -/

theorem collectOfficialReviews_eq_filter (notes : List Note) :
    collectOfficialReviews notes = notes.filter noteMatches := by
  induction notes with
  | nil => rfl
  | cons note rest ih =>
    by_cases h : noteMatches note = true
    · simp [collectOfficialReviews, List.filter_cons, h, ih]
    · simp [collectOfficialReviews, List.filter_cons, h, ih]

theorem fetch_reviews_ok (service : String → Except String (List Note)) (paper_id : String)
    (notes : List Note) (h : service paper_id = Except.ok notes) :
    (fetch_reviews service paper_id).1 = notes.filter noteMatches := by
  simp [fetch_reviews, h, collectOfficialReviews_eq_filter]

theorem rowForReview_some_ne {paper : PaperRef} {review : Note} {row : ExpandedRow}
    (h : rowForReview paper review = some row) : row.reviewer_id ≠ "" := by
  cases hx : extract_reviewer_id review with
  | none => simp [rowForReview, hx] at h
  | some reviewer_id =>
    simp only [rowForReview, hx] at h
    by_cases he : reviewer_id = ""
    · simp [he] at h
    · rw [if_neg he] at h
      injection h with h2
      rw [← h2]
      exact he

theorem length_filterMap_rowForReview (paper : PaperRef) (reviews : List Note) :
    (reviews.filterMap (rowForReview paper)).length = reviews.countP hasResolvableReviewer := by
  induction reviews with
  | nil => rfl
  | cons review rest ih =>
    rw [List.filterMap_cons, List.countP_cons]
    cases hx : extract_reviewer_id review with
    | none =>
      have hrow : rowForReview paper review = none := by simp [rowForReview, hx]
      have hres : hasResolvableReviewer review = false := by simp [hasResolvableReviewer, hx]
      simp [hrow, hres, ih]
    | some reviewer_id =>
      by_cases he : reviewer_id = ""
      · have hrow : rowForReview paper review = none := by simp [rowForReview, hx, he]
        have hres : hasResolvableReviewer review = false := by simp [hasResolvableReviewer, hx, he]
        simp [hrow, hres, ih]
      · have hrow : rowForReview paper review
            = some ⟨paper.paper_id, paper.forum_url, reviewer_id⟩ := by
          simp [rowForReview, hx, he]
        have hres : hasResolvableReviewer review = true := by
          simp [hasResolvableReviewer, hx, he]
        simp [hrow, hres, ih]

theorem processPaper_errors (service : String → Except String (List Note))
    (acc : List ExpandedRow × RunStats) (paper : PaperRef) :
    (processPaper service acc paper).2.errors = acc.2.errors := by
  unfold processPaper
  by_cases h : ((fetch_reviews service paper.paper_id).1).isEmpty = true
  · have hlen : ((fetch_reviews service paper.paper_id).1).length = 0 :=
      List.isEmpty_iff_length_eq_zero.mp h
    simp [h, hlen]
  · by_cases hc :
      0 < (((fetch_reviews service paper.paper_id).1).filterMap (rowForReview paper)).length
    · simp [h, hc]
    · simp [h, hc]

theorem processPaper_processed (service : String → Except String (List Note))
    (acc : List ExpandedRow × RunStats) (paper : PaperRef) :
    (processPaper service acc paper).2.processed = acc.2.processed + 1 := by
  unfold processPaper
  by_cases h : ((fetch_reviews service paper.paper_id).1).isEmpty = true
  · by_cases hlen : ((fetch_reviews service paper.paper_id).1).length = 0
    · simp [h, hlen]
    · simp [h, hlen]
  · by_cases hc :
      0 < (((fetch_reviews service paper.paper_id).1).filterMap (rowForReview paper)).length
    · simp [h, hc]
    · simp [h, hc]

theorem processPaper_rows (service : String → Except String (List Note))
    (acc : List ExpandedRow × RunStats) (paper : PaperRef) :
    (processPaper service acc paper).1
      = acc.1 ++ ((fetch_reviews service paper.paper_id).1).filterMap (rowForReview paper) := by
  unfold processPaper
  by_cases h : ((fetch_reviews service paper.paper_id).1).isEmpty = true
  · have he : (fetch_reviews service paper.paper_id).1 = [] := List.isEmpty_iff.mp h
    simp [h, he]
  · by_cases hc :
      0 < (((fetch_reviews service paper.paper_id).1).filterMap (rowForReview paper)).length
    · simp [h, hc]
    · simp [h, hc]

theorem foldl_processPaper_errors (service : String → Except String (List Note))
    (papers : List PaperRef) :
    ∀ acc : List ExpandedRow × RunStats,
      (papers.foldl (processPaper service) acc).2.errors = acc.2.errors := by
  induction papers with
  | nil => intro acc; rfl
  | cons paper rest ih =>
    intro acc
    rw [List.foldl_cons, ih, processPaper_errors]

theorem foldl_processPaper_processed (service : String → Except String (List Note))
    (papers : List PaperRef) :
    ∀ acc : List ExpandedRow × RunStats,
      (papers.foldl (processPaper service) acc).2.processed
        = acc.2.processed + papers.length := by
  induction papers with
  | nil => intro acc; rfl
  | cons paper rest ih =>
    intro acc
    rw [List.foldl_cons, ih, processPaper_processed, List.length_cons]
    omega

theorem foldl_processPaper_mem (service : String → Except String (List Note))
    (papers : List PaperRef) :
    ∀ (acc : List ExpandedRow × RunStats) (row : ExpandedRow),
      row ∈ (papers.foldl (processPaper service) acc).1 →
      row ∈ acc.1 ∨ row.reviewer_id ≠ "" := by
  induction papers with
  | nil => intro acc row h; exact Or.inl h
  | cons paper rest ih =>
    intro acc row h
    rw [List.foldl_cons] at h
    rcases ih (processPaper service acc paper) row h with h2 | h2
    · rw [processPaper_rows] at h2
      rcases List.mem_append.mp h2 with h3 | h3
      · exact Or.inl h3
      · obtain ⟨review, -, hrow⟩ := List.mem_filterMap.mp h3
        exact Or.inr (rowForReview_some_ne hrow)
    · exact Or.inr h2

theorem perm_cons_eraseIdx {α : Type} (l : List α) (j : Nat) (h : j < l.length) :
    l.Perm (l[j] :: l.eraseIdx j) := by
  conv_lhs => rw [← List.take_append_drop j l, List.drop_eq_getElem_cons h]
  rw [List.eraseIdx_eq_take_drop_succ]
  exact List.perm_middle

theorem randomSample_length {α : Type} :
    ∀ (k : Nat) (g : Gen) (pool : List α),
      (randomSample g pool k).length = min k pool.length := by
  intro k
  induction k with
  | zero => intro g pool; simp [randomSample]
  | succ k2 ih =>
    intro g pool
    rw [randomSample]
    cases hj : pool[(lcgNext g).1 % pool.length]? with
    | none =>
      have hle : pool.length ≤ (lcgNext g).1 % pool.length := List.getElem?_eq_none_iff.mp hj
      have hz : pool.length = 0 := by
        rcases Nat.eq_zero_or_pos pool.length with h0 | h0
        · exact h0
        · exact absurd (Nat.mod_lt _ h0) (Nat.not_lt.mpr hle)
      simp [hz]
    | some a =>
      obtain ⟨hlt, -⟩ := List.getElem?_eq_some_iff.mp hj
      simp only [List.length_cons, ih]
      rw [List.length_eraseIdx_of_lt hlt]
      omega

theorem randomSample_subperm {α : Type} :
    ∀ (k : Nat) (g : Gen) (pool : List α),
      (randomSample g pool k).Subperm pool := by
  intro k
  induction k with
  | zero => intro g pool; simp [randomSample]
  | succ k2 ih =>
    intro g pool
    rw [randomSample]
    cases hj : pool[(lcgNext g).1 % pool.length]? with
    | none => simp
    | some a =>
      obtain ⟨hlt, hget⟩ := List.getElem?_eq_some_iff.mp hj
      have hsub : (a :: randomSample (lcgNext g).2
            (pool.eraseIdx ((lcgNext g).1 % pool.length)) k2).Subperm
          (a :: pool.eraseIdx ((lcgNext g).1 % pool.length)) :=
        (List.subperm_cons a).mpr (ih _ _)
      have hperm : pool.Perm (a :: pool.eraseIdx ((lcgNext g).1 % pool.length)) := by
        rw [← hget]
        exact perm_cons_eraseIdx pool _ hlt
      exact (hperm.subperm_left).mpr hsub

theorem randomSample_realizes {α : Type} :
    ∀ (k : Nat) (g : Gen) (pool : List α),
      RandomSampleRel g pool k (randomSample g pool k) := by
  intro k
  induction k with
  | zero => intro g pool; rw [randomSample]; exact RandomSampleRel.done g pool
  | succ k2 ih =>
    intro g pool
    rw [randomSample]
    cases hj : pool[(lcgNext g).1 % pool.length]? with
    | none => exact RandomSampleRel.exhausted g pool k2 (lcgNext g).1 (lcgNext g).2 rfl hj
    | some a => exact RandomSampleRel.pick g pool k2 a _ (lcgNext g).1 (lcgNext g).2 rfl hj (ih _ _)

theorem sampler_realizes {α : Type} (seed : Nat) (rows : List α) (target_size : Nat) :
    SamplerRel seed rows target_size (sampler seed rows target_size) := by
  unfold sampler
  by_cases h : rows.length > target_size
  · simp only [if_pos h]
    exact SamplerRel.sampled seed rows target_size _ h (randomSample_realizes _ _ _)
  · simp only [if_neg h]
    exact SamplerRel.keep seed rows target_size h

theorem randomSampleRel_det {α : Type} {g : Gen} {pool : List α} {k : Nat} {out1 : List α}
    (h1 : RandomSampleRel g pool k out1) :
    ∀ out2 : List α, RandomSampleRel g pool k out2 → out1 = out2 := by
  induction h1 with
  | done g pool =>
    intro out2 h2
    cases h2
    rfl
  | exhausted g pool k r g2 hstep hnone =>
    intro out2 h2
    cases h2 with
    | exhausted _ _ _ r2 g22 hstep2 hnone2 => rfl
    | pick _ _ _ a2 outb r2 g22 hstep2 hsome2 hrec2 =>
      rw [hstep] at hstep2
      injection hstep2 with hr hg
      subst hr
      rw [hnone] at hsome2
      cases hsome2
  | pick g pool k a out r g2 hstep hsome hrec ih =>
    intro out2 h2
    cases h2 with
    | exhausted _ _ _ r2 g22 hstep2 hnone2 =>
      rw [hstep] at hstep2
      injection hstep2 with hr hg
      subst hr
      rw [hsome] at hnone2
      cases hnone2
    | pick _ _ _ a2 outb r2 g22 hstep2 hsome2 hrec2 =>
      rw [hstep] at hstep2
      injection hstep2 with hr hg
      subst hr
      subst hg
      rw [hsome] at hsome2
      injection hsome2 with ha
      subst ha
      rw [ih _ hrec2]

/-! ### Claim theorems -/

/-- C1 (counterexample): the claim's case-insensitive reading fails on the
code.  The invitation label "official_review" contains the marker token
case-insensitively (the spec-side predicate accepts it), yet the code's
case-sensitive `in` test rejects the note and `fetch_reviews` returns the
empty list. -/
theorem official_review_case_insensitive_cex :
    specCaseInsensitiveMatch "official_review" = true
    ∧ noteMatches note_lowercase = false
    ∧ (fetch_reviews service_lowercase "P1").1 = [] :=
  ⟨by decide, by decide, by decide⟩

/-- C1 (amended): for every paper identifier whose service call succeeds,
`fetch_reviews` returns exactly the notes, in service order, whose
invitation-label set contains at least one label having "Official_Review" as
a case-SENSITIVE, position-insensitive substring; notes with no such label
are excluded, and the result is empty when no note matches. -/
theorem fetch_reviews_filters_official :
    ∀ (service : String → Except String (List Note)) (paper_id : String) (notes : List Note),
      service paper_id = Except.ok notes →
      (fetch_reviews service paper_id).1 = notes.filter noteMatches
      ∧ ((∀ note ∈ notes, noteMatches note = false) → (fetch_reviews service paper_id).1 = []) := by
  intro service paper_id notes h
  constructor
  · exact fetch_reviews_ok service paper_id notes h
  · intro hall
    rw [fetch_reviews_ok service paper_id notes h]
    rw [List.filter_eq_nil_iff]
    intro a ha
    simp [hall a ha]

/-- C1 witness: a concrete service response with one official review and one
comment; the fetcher keeps exactly the official review. -/
theorem fetch_reviews_filters_official_witness :
    service_mixed "P1" = Except.ok [note_official, note_comment]
    ∧ (fetch_reviews service_mixed "P1").1 = [note_official, note_comment].filter noteMatches
    ∧ (fetch_reviews service_mixed "P1").1 = [note_official] := by
  refine ⟨rfl, ?_, by decide⟩
  exact (fetch_reviews_filters_official service_mixed "P1" [note_official, note_comment] rfl).1

/-- C2: the errors counter is dead code.  The `errors += 1` branch sits in the
`else` of `if reviews:`, where `reviews` is always an empty list, so its guard
`len(reviews) == 0` always holds and `errors` is never incremented — in every
run it stays `0`, even when a fetch raises (the claim expects it to become 1);
the run does continue through all papers (`processed = papers.length`).  The
second conjunct evaluates the failing input: fetch raises for "P1", returns
no notes for "P2". -/
theorem errors_counter_never_incremented :
    (∀ (service : String → Except String (List Note)) (papers : List PaperRef),
      (mainLoop service papers).2.errors = 0
      ∧ (mainLoop service papers).2.processed = papers.length)
    ∧ (mainLoop service_raising papers_two).1 = []
    ∧ (mainLoop service_raising papers_two).2 = ⟨2, 0, 0, 0⟩ := by
  refine ⟨?_, by decide, by decide⟩
  intro service papers
  constructor
  · rw [mainLoop, foldl_processPaper_errors]
    rfl
  · rw [mainLoop, foldl_processPaper_processed]
    simp [RunStats.init]

/-- C3: the Sampler is deterministic — two invocations on the same rows,
target size and seed (two derivations of the sampler's operational relation)
produce identical output, in contents and order. -/
theorem sampler_deterministic :
    ∀ {α : Type} (seed : Nat) (rows : List α) (target_size : Nat) (out1 out2 : List α),
      SamplerRel seed rows target_size out1 → SamplerRel seed rows target_size out2 →
      out1 = out2 := by
  intro α seed rows target_size out1 out2 h1 h2
  cases h1 with
  | keep hle =>
    cases h2 with
    | keep hle2 => rfl
    | sampled _ hgt2 hs2 => exact absurd hgt2 hle
  | sampled _ hgt hs =>
    cases h2 with
    | keep hle2 => exact absurd hgt hle2
    | sampled _ hgt2 hs2 => exact randomSampleRel_det hs _ hs2

/-- C3 witness: two concrete invocations on ten rows with seed 42 and target
4 both yield `[8, 10, 2, 3]`. -/
theorem sampler_deterministic_witness :
    SamplerRel 42 rows10 4 (sampler 42 rows10 4)
    ∧ SamplerRel 42 rows10 4 [8, 10, 2, 3]
    ∧ sampler 42 rows10 4 = [8, 10, 2, 3] := by
  have h1 := sampler_realizes 42 rows10 4
  have heq : sampler 42 rows10 4 = [8, 10, 2, 3] := by decide
  have h2 : SamplerRel 42 rows10 4 [8, 10, 2, 3] := heq ▸ h1
  exact ⟨h1, h2, sampler_deterministic 42 rows10 4 _ _ h1 h2⟩

/-- C4: the Sampler returns all rows unmodified in input order when the list
fits the target; exactly `target_size` without-replacement rows drawn from
the input when the list is longer; and an empty sequence when the target is
zero. -/
theorem sampler_size_contract :
    ∀ {α : Type} (seed target_size : Nat) (rows : List α),
      (rows.length ≤ target_size → sampler seed rows target_size = rows)
      ∧ (target_size < rows.length →
          (sampler seed rows target_size).length = target_size
          ∧ (sampler seed rows target_size).Subperm rows)
      ∧ (target_size = 0 → sampler seed rows target_size = []) := by
  intro α seed target_size rows
  refine ⟨?_, ?_, ?_⟩
  · intro h
    have hn : ¬ rows.length > target_size := Nat.not_lt.mpr h
    simp [sampler, hn]
  · intro h
    constructor
    · simp only [sampler, if_pos h]
      rw [randomSample_length]
      omega
    · simp only [sampler, if_pos h]
      exact randomSample_subperm _ _ _
  · intro h
    subst h
    by_cases h0 : rows.length > 0
    · simp only [sampler, if_pos h0]
      have : min 0 rows.length = 0 := by omega
      rw [this, randomSample]
    · have : rows = [] := List.length_eq_zero.mp (by omega)
      subst this
      simp [sampler]

/-- C4 witness: three rows with target 5 are returned unchanged; three rows
with target 2 give exactly 2 rows drawn without replacement; target 0 gives
the empty list. -/
theorem sampler_size_contract_witness :
    (rows3.length ≤ 5 ∧ sampler 7 rows3 5 = rows3)
    ∧ ((2 : Nat) < rows3.length ∧ (sampler 7 rows3 2).length = 2
        ∧ (sampler 7 rows3 2).Subperm rows3)
    ∧ sampler 7 rows3 0 = [] :=
  ⟨⟨by decide, (sampler_size_contract 7 5 rows3).1 (by decide)⟩,
   ⟨by decide, ((sampler_size_contract 7 2 rows3).2.1 (by decide)).1,
    ((sampler_size_contract 7 2 rows3).2.1 (by decide)).2⟩,
   (sampler_size_contract 7 0 rows3).2.2 rfl⟩

/-- C5 (counterexample): the claim's "non-absent" reading fails on the code.
A fetched review whose only signature is the empty string yields the
non-absent reviewer identity `some ""` (so R = 1 under the claim's counting),
yet `main`'s `if reviewer_id:` truthiness test appends no row and adds
nothing to `total_reviews`. -/
theorem nonabsent_reviewer_rows_cex :
    (fetch_reviews service_empty_sig "P1").1.countP (fun r => (extract_reviewer_id r).isSome) = 1
    ∧ (processPaper service_empty_sig ([], RunStats.init) ⟨"P1", "u1"⟩).1.length = 0
    ∧ (processPaper service_empty_sig ([], RunStats.init) ⟨"P1", "u1"⟩).2.total_reviews = 0 :=
  ⟨by decide, by decide, by decide⟩

/-- C5 (amended): for every input paper whose fetch returns K reviews of
which R yield a non-absent, NON-EMPTY reviewer identity, the Expansion Engine
appends exactly R ExpandedRows for that paper, adds R to `total_reviews`,
increments `papers_with_reviews` exactly when R > 0, and increments
`processed` for every paper regardless of outcome. -/
theorem expansion_row_accounting :
    ∀ (service : String → Except String (List Note)) (paper : PaperRef)
      (rows : List ExpandedRow) (stats : RunStats),
      (processPaper service (rows, stats) paper).1.length
          = rows.length + (fetch_reviews service paper.paper_id).1.countP hasResolvableReviewer
      ∧ (processPaper service (rows, stats) paper).2.total_reviews
          = stats.total_reviews
            + (fetch_reviews service paper.paper_id).1.countP hasResolvableReviewer
      ∧ (processPaper service (rows, stats) paper).2.papers_with_reviews
          = stats.papers_with_reviews
            + (if 0 < (fetch_reviews service paper.paper_id).1.countP hasResolvableReviewer
               then 1 else 0)
      ∧ (processPaper service (rows, stats) paper).2.processed = stats.processed + 1 := by
  intro service paper rows stats
  have hR := length_filterMap_rowForReview paper (fetch_reviews service paper.paper_id).1
  by_cases h : ((fetch_reviews service paper.paper_id).1).isEmpty = true
  · have he : (fetch_reviews service paper.paper_id).1 = [] := List.isEmpty_iff.mp h
    refine ⟨?_, ?_, ?_, ?_⟩ <;> simp [processPaper, he]
  · by_cases hc :
        0 < (((fetch_reviews service paper.paper_id).1).filterMap (rowForReview paper)).length
    · have hpos : 0 < (fetch_reviews service paper.paper_id).1.countP hasResolvableReviewer := by
        rw [← hR]; exact hc
      refine ⟨?_, ?_, ?_, ?_⟩ <;> simp [processPaper, h, hc, hR, hpos]
    · have hzero : (fetch_reviews service paper.paper_id).1.countP hasResolvableReviewer = 0 := by
        rw [← hR]; omega
      refine ⟨?_, ?_, ?_, ?_⟩ <;> simp [processPaper, h, hc, hR, hzero]

/-- C6: `extract_reviewer_id` returns exactly the first signature string when
the signature sequence is present and non-empty; returns absent when it is
empty or the attribute is missing; and returns absent (never propagating)
when reading the signatures raises a structural error. -/
theorem extract_reviewer_id_contract :
    ∀ review : Note,
      (∀ (s : String) (rest : List String),
        review.signatures = SigField.present (s :: rest) → extract_reviewer_id review = some s)
      ∧ (review.signatures = SigField.present [] → extract_reviewer_id review = none)
      ∧ (review.signatures = SigField.missing → extract_reviewer_id review = none)
      ∧ (∀ msg : String,
        review.signatures = SigField.malformed msg → extract_reviewer_id review = none) := by
  intro review
  refine ⟨?_, ?_, ?_, ?_⟩
  · intro s rest h
    simp [extract_reviewer_id, readSignatures, h]
  · intro h
    simp [extract_reviewer_id, readSignatures, h]
  · intro h
    simp [extract_reviewer_id, readSignatures, h]
  · intro msg h
    simp [extract_reviewer_id, readSignatures, h]

/-- C6 witness: the four signature shapes at concrete notes. -/
theorem extract_reviewer_id_contract_witness :
    (note_sig.signatures = SigField.present ["Reviewer_ab12", "Area_Chair_q"]
      ∧ extract_reviewer_id note_sig = some "Reviewer_ab12")
    ∧ (note_nosig.signatures = SigField.present []
      ∧ extract_reviewer_id note_nosig = none)
    ∧ (note_missing_sig.signatures = SigField.missing
      ∧ extract_reviewer_id note_missing_sig = none)
    ∧ (note_bad_sig.signatures = SigField.malformed "attribute error"
      ∧ extract_reviewer_id note_bad_sig = none) :=
  ⟨⟨rfl, (extract_reviewer_id_contract note_sig).1 "Reviewer_ab12" ["Area_Chair_q"] rfl⟩,
   ⟨rfl, (extract_reviewer_id_contract note_nosig).2.1 rfl⟩,
   ⟨rfl, (extract_reviewer_id_contract note_missing_sig).2.2.1 rfl⟩,
   ⟨rfl, (extract_reviewer_id_contract note_bad_sig).2.2.2 "attribute error" rfl⟩⟩

/-- C7: whenever the remote call raises, `fetch_reviews` catches the
exception, logs the paper identifier with the error message truncated to its
first 80 characters, and returns the empty sequence (totality of the model
means nothing propagates past this boundary). -/
theorem fetch_reviews_error_boundary :
    ∀ (service : String → Except String (List Note)) (paper_id e : String),
      service paper_id = Except.error e →
      fetch_reviews service paper_id
        = ([], ["  [X] Error for " ++ paper_id ++ ": " ++ e.take 80]) := by
  intro service paper_id e h
  simp [fetch_reviews, h]

/-- C7 witness: a raised 100-character message is logged truncated to its
first 80 characters and no reviews are returned. -/
theorem fetch_reviews_error_boundary_witness :
    service_long_error "P1" = Except.error long_message
    ∧ fetch_reviews service_long_error "P1"
        = ([], ["  [X] Error for P1: "
            ++ "01234567890123456789012345678901234567890123456789012345678901234567890123456789"]) := by
  refine ⟨rfl, ?_⟩
  rw [fetch_reviews_error_boundary service_long_error "P1" long_message rfl]
  decide

/-- C8: the run writes output exactly when at least one ExpandedRow was
accumulated; with zero rows it reports failure and attempts no write, and
any written output is the sampled rows. -/
theorem empty_run_no_output :
    ∀ (service : String → Except String (List Note)) (papers : List PaperRef) (seed : Nat),
      ((mainRun service papers seed).1 = none ↔ (mainLoop service papers).1 = [])
      ∧ (∀ out : List ExpandedRow, (mainRun service papers seed).1 = some out →
          out = sampler seed (mainLoop service papers).1 SAMPLE_SIZE) := by
  intro service papers seed
  constructor
  · constructor
    · intro h
      by_cases he : (mainLoop service papers).1.isEmpty = true
      · exact List.isEmpty_iff.mp he
      · simp [mainRun, he] at h
    · intro h
      have he : (mainLoop service papers).1.isEmpty = true := by simp [h]
      simp [mainRun, he]
  · intro out hout
    by_cases he : (mainLoop service papers).1.isEmpty = true
    · simp [mainRun, he] at hout
    · simp [mainRun, he] at hout
      exact hout.symm

/-- C8 witness: a run accumulating zero rows writes nothing; a run with one
row writes the sampled rows. -/
theorem empty_run_no_output_witness :
    (mainRun service_raising papers_two 0).1 = none
    ∧ (mainRun service_one papers_one 0).1 = some [⟨"P1", "u1", "R1"⟩]
    ∧ [(⟨"P1", "u1", "R1"⟩ : ExpandedRow)]
        = sampler 0 (mainLoop service_one papers_one).1 SAMPLE_SIZE := by
  refine ⟨?_, by decide, ?_⟩
  · exact (empty_run_no_output service_raising papers_two 0).1.mpr (by decide)
  · exact (empty_run_no_output service_one papers_one 0).2 [⟨"P1", "u1", "R1"⟩] (by decide)

/-- C9: every ExpandedRow accumulated by the expansion loop has a non-empty
`reviewer_id`; a review whose first signature is the empty string has its
identity extracted verbatim as `some ""` but contributes no row. -/
theorem expanded_rows_nonempty_reviewer :
    (∀ (service : String → Except String (List Note)) (papers : List PaperRef)
      (row : ExpandedRow), row ∈ (mainLoop service papers).1 → row.reviewer_id ≠ "")
    ∧ (∀ (review : Note) (rest : List String),
        review.signatures = SigField.present ("" :: rest) →
        extract_reviewer_id review = some ""
        ∧ ∀ paper : PaperRef, rowForReview paper review = none) := by
  constructor
  · intro service papers row h
    rcases foldl_processPaper_mem service papers ([], RunStats.init) row h with h2 | h2
    · exact absurd h2 (List.not_mem_nil row)
    · exact h2
  · intro review rest h
    constructor
    · simp [extract_reviewer_id, readSignatures, h]
    · intro paper
      simp [rowForReview, extract_reviewer_id, readSignatures, h]

/-- C9 witness: a concrete accumulated row has a non-empty reviewer id, and
the empty-string-signature note yields `some ""` yet no row. -/
theorem expanded_rows_nonempty_reviewer_witness :
    ((⟨"P1", "u1", "R1"⟩ : ExpandedRow) ∈ (mainLoop service_one papers_one).1
      ∧ (⟨"P1", "u1", "R1"⟩ : ExpandedRow).reviewer_id ≠ "")
    ∧ (note_empty_sig.signatures = SigField.present ("" :: [])
      ∧ extract_reviewer_id note_empty_sig = some ""
      ∧ rowForReview ⟨"P1", "u1"⟩ note_empty_sig = none) := by
  refine ⟨⟨by decide, ?_⟩, rfl, ?_, ?_⟩
  · exact expanded_rows_nonempty_reviewer.1 service_one papers_one _ (by decide)
  · exact (expanded_rows_nonempty_reviewer.2 note_empty_sig [] rfl).1
  · exact (expanded_rows_nonempty_reviewer.2 note_empty_sig [] rfl).2 ⟨"P1", "u1"⟩

/-- C10: each note of the service response is included at most once in the
fetcher's result (the inner invitation loop breaks at the first matching
label): the number of occurrences of any note in the result never exceeds its
number of occurrences in the response. -/
theorem fetch_reviews_note_at_most_once :
    ∀ (service : String → Except String (List Note)) (paper_id : String)
      (notes : List Note) (note : Note),
      service paper_id = Except.ok notes →
      (fetch_reviews service paper_id).1.count note ≤ notes.count note := by
  intro service paper_id notes note h
  rw [fetch_reviews_ok service paper_id notes h]
  exact (List.filter_sublist notes).count_le note

/-- C10 witness: a note with two invitation labels both containing the marker
token appears exactly once in the result. -/
theorem fetch_reviews_note_at_most_once_witness :
    service_double "P1" = Except.ok [note_double_invitation]
    ∧ (fetch_reviews service_double "P1").1 = [note_double_invitation]
    ∧ (fetch_reviews service_double "P1").1.count note_double_invitation
        ≤ [note_double_invitation].count note_double_invitation :=
  ⟨rfl, by decide,
   fetch_reviews_note_at_most_once service_double "P1" [note_double_invitation]
     note_double_invitation rfl⟩

end ReviewBias
